import Mathlib

/-!
# Verification of the ggrc-core bulk-operations matrix engine and comment model

Shallow embedding of:
* `Commentable.validate_recipients` from `src/ggrc/models/comment.py` (from source);
* the bulk CAVs matrix aggregation engine behind `/api/bulk_operations/cavs/search`,
  whose implementation is not part of the inspected sources (only its integration
  tests are), so it is modelled from the specification.
-/

namespace Ggrc

/-! ## String helpers

Kernel-computable embeddings of the string primitives the code uses:
Python's `str.split(",")`, `",".join(...)`, `int(...)` on digit strings and
lexicographic string comparison. -/

/-- Split a character list on a separator character; the empty list yields
one empty chunk, like Python's `"".split(",") == [""]`. -/
def splitOnChar (c : Char) : List Char → List (List Char)
  | [] => [[]]
  | x :: xs =>
      let r := splitOnChar c xs
      if x = c then [] :: r
      else
        match r with
        | [] => [[x]]
        | y :: ys => (x :: y) :: ys

/-- Python's `s.split(",")`. -/
def splitComma (s : String) : List String :=
  (splitOnChar ',' s.data).map (fun l => String.mk l)

/-- Python's `",".join(names)`. -/
def joinComma : List String → String
  | [] => ""
  | [x] => x
  | x :: y :: ys => x ++ "," ++ joinComma (y :: ys)

/-- Parse a non-negative decimal numeral, `none` on anything else. -/
def parseNat (s : String) : Option Nat :=
  if s.data ≠ [] ∧ s.data.all Char.isDigit then
    some (s.data.foldl (fun n c => n * 10 + (c.toNat - 48)) 0)
  else none

/-- Lexicographic strict comparison of character lists by code point. -/
def charListLt : List Char → List Char → Bool
  | [], [] => false
  | [], _ :: _ => true
  | _ :: _, [] => false
  | a :: as, b :: bs =>
      if a.toNat < b.toNat then true
      else if b.toNat < a.toNat then false
      else charListLt as bs

/-- Lexicographic strict comparison of strings. -/
def strLt (a b : String) : Bool :=
  charListLt a.data b.data

/-! ## Commentable.validate_recipients (from `src/ggrc/models/comment.py`) -/

/-- `Commentable.VALID_RECIPIENTS` from `comment.py`: the frozen set of
recipient role names accepted by the validator. -/
def VALID_RECIPIENTS : List String :=
  ["Assignees", "Creators", "Verifiers", "Admin", "Primary Contacts",
   "Secondary Contacts"]

/-- The set comprehension `set(name for name in value.split(",") if name)`
from `validate_recipients`: split on commas, drop empty names, deduplicate
(one occurrence kept per distinct name, standing in for Python's unordered
set; the set of names is what matters). -/
def recipientNames (value : String) : List String :=
  ((splitComma value).filter (fun n => n ≠ "")).dedup

/-- `Commentable.validate_recipients` from `comment.py`.  `Except.error`
models the `ValueError` raise (carrying the offending name set); `Except.ok`
models a normal return.  Python's unordered set iteration in
`",".join(value)` is modelled by the deterministic order of
`recipientNames`. -/
def validate_recipients (value : String) : Except (List String) String :=
  let names := recipientNames value
  if names ≠ [] ∧ names.all (fun n => VALID_RECIPIENTS.contains n) then
    Except.ok (joinComma names)
  else if names = [] then
    Except.ok ""
  else
    Except.error names

/-! ## Matrix engine data model

Modelled from the spec: the matrix aggregation engine of the bulk
operations endpoint is absent from the inspected sources (only its
integration tests are present), so the data model of spec section 3 is
embedded here. -/

/-- Modelled from the spec: kind tag of an evidence record (`url` or `file`). -/
inductive EvidenceKind where
  | url
  | file
deriving DecidableEq, Repr

/-- Modelled from the spec: a target object (assessment-like record) with
its identifying fields, attached evidence records and comment count. -/
structure TargetObject where
  id : Nat
  title : String
  slug : String
  status : String
  assessment_type : String
  evidences : List EvidenceKind
  comments_count : Nat
deriving DecidableEq, Repr

/-- Modelled from the spec: an AttributeDefinition, attached to exactly one
target object (`definition_id`).  `multi_choice_options` and
`multi_choice_mandatory` are the raw comma-separated strings, present only
for Dropdown/Multiselect definitions. -/
structure AttributeDefinition where
  id : Nat
  definition_id : Nat
  title : String
  attribute_type : String
  mandatory : Bool
  default_value : Option String
  multi_choice_options : Option String
  multi_choice_mandatory : Option String
deriving DecidableEq, Repr

/-- Modelled from the spec: an AttributeValue, belonging to one definition
and one target object; `attribute_object_id` is the person reference used
only by Map:Person values. -/
structure AttributeValue where
  custom_attribute_id : Nat
  attributable_id : Nat
  attribute_value : String
  attribute_object_id : Option Nat
deriving DecidableEq, Repr

/-- Modelled from the spec: the consistent read snapshot the engine works
against for one invocation. -/
structure DB where
  objects : List TargetObject
  definitions : List AttributeDefinition
  values : List AttributeValue
deriving DecidableEq, Repr

/-- Modelled from the spec: a rendered matrix cell. -/
structure Cell where
  value : Option String
  attribute_person_id : Option Nat
  preconditions_failed : Option (List String)
  definition_id : Nat
  attribute_definition_id : Nat
  multi_choice_options : Option String
  multi_choice_mandatory : Option String
deriving DecidableEq, Repr

/-- Modelled from the spec: one rendered attribute Row; `values` is the
keyed mapping from stringified object id to Cell, in contribution order. -/
structure Row where
  title : String
  mandatory : Bool
  attribute_type : String
  default_value : Option String
  values : List (String × Cell)
deriving DecidableEq, Repr

/-- Modelled from the spec: one entry of the `assessments` array. -/
structure AssessmentSummary where
  assessment_type : String
  id : Nat
  slug : String
  title : String
  status : String
  urls_count : Nat
  files_count : Nat
deriving DecidableEq, Repr

/-- Modelled from the spec: the top-level response structure. -/
structure MatrixResponse where
  attributes : List Row
  assessments : List AssessmentSummary
deriving DecidableEq, Repr

/-! ## Matrix engine operations (modelled from spec sections 4 and 6) -/

/-- Modelled from the spec: the grouping identity of an attribute
definition — the tuple (title, attribute_type, mandatory, default_value). -/
def identityKey (d : AttributeDefinition) : String × String × Bool × Option String :=
  (d.title, d.attribute_type, d.mandatory, d.default_value)

/-- Modelled from the spec: the same identity tuple read off a rendered Row. -/
def rowKey (r : Row) : String × String × Bool × Option String :=
  (r.title, r.attribute_type, r.mandatory, r.default_value)

/-- Modelled from the spec: a Row accumulator during catalog building — a
representative definition (the first seen for the identity) plus every
contributing definition in first-seen order. -/
structure RowGroup where
  rep : AttributeDefinition
  defs : List AttributeDefinition
deriving DecidableEq, Repr

/-- Modelled from the spec (4.1): insert one loaded definition into the
identity-keyed Row accumulators, preserving first-seen Row order. -/
def insertDef (d : AttributeDefinition) : List RowGroup → List RowGroup
  | [] => [⟨d, [d]⟩]
  | g :: gs =>
      if identityKey g.rep = identityKey d then ⟨g.rep, g.defs ++ [d]⟩ :: gs
      else g :: insertDef d gs

/-- Modelled from the spec (4.1): group loaded definitions sharing an
identity into one Row each, in first-seen order. -/
def groupRows (defs : List AttributeDefinition) : List RowGroup :=
  defs.foldl (fun gs d => insertDef d gs) []

/-- Modelled from the spec (4.1): load every AttributeDefinition scoped to
the resolved target objects, in deterministic load order. -/
def loadedDefs (db : DB) (ids : List Nat) : List AttributeDefinition :=
  db.definitions.filter (fun d => ids.contains d.definition_id)

/-- Modelled from the spec: look a target object up by identifier. -/
def lookupObj (db : DB) (i : Nat) : Option TargetObject :=
  db.objects.find? (fun o => o.id == i)

/-- Modelled from the spec (4.2): the recorded AttributeValue for a
(definition, object) pair, absent when the pair is not yet answered. -/
def findValue (db : DB) (d : AttributeDefinition) : Option AttributeValue :=
  db.values.find? (fun v =>
    v.custom_attribute_id == d.id && v.attributable_id == d.definition_id)

/-- Modelled from the spec (4.3): does the object have at least one comment. -/
def hasComment (db : DB) (objId : Nat) : Bool :=
  match lookupObj db objId with
  | some o => decide (0 < o.comments_count)
  | none => false

/-- Modelled from the spec (4.3): does the object have at least one evidence
record of either kind. -/
def hasEvidence (db : DB) (objId : Nat) : Bool :=
  match lookupObj db objId with
  | some o => !o.evidences.isEmpty
  | none => false

/-- Modelled from the spec (4.3): does the object have at least one url-kind
evidence record. -/
def hasUrlEvidence (db : DB) (objId : Nat) : Bool :=
  match lookupObj db objId with
  | some o => o.evidences.contains EvidenceKind.url
  | none => false

/-- Modelled from the spec (4.3): decode one per-option requirement code and
collect the names of the unmet requirements, in the fixed order comment,
evidence, url (bit 1 = comment, bit 2 = any evidence, bit 4 = url evidence,
pinned by the (mask, expected-failures) pairs of the integration tests). -/
def unmetRequirements (db : DB) (objId : Nat) (code : Nat) : List String :=
  (if code.testBit 0 && !hasComment db objId then ["comment"] else []) ++
    (if code.testBit 1 && !hasEvidence db objId then ["evidence"] else []) ++
      (if code.testBit 2 && !hasUrlEvidence db objId then ["url"] else [])

/-- Modelled from the spec (4.3): the requirement code the mask declares for
the selected option `v`, `none` when the definition carries no mask, the
selected option is not among the options, or the mask is mismatched against
the option count (data inconsistency, treated permissively). -/
def selectedCode (d : AttributeDefinition) (v : String) : Option Nat :=
  match d.multi_choice_options, d.multi_choice_mandatory with
  | some opts, some mask =>
      match (splitComma opts).indexOf? v with
      | some i =>
          match (splitComma mask)[i]? with
          | some codeStr => some ((parseNat codeStr).getD 0)
          | none => none
      | none => none
  | _, _ => none

/-- Modelled from the spec (4.3): the completion-precondition verdict for a
cell with recorded value `v` — `none` when nothing is required or everything
required is present, otherwise the unmet requirement names. -/
def evalPreconditions (db : DB) (d : AttributeDefinition) (v : String) :
    Option (List String) :=
  match selectedCode d v with
  | none => none
  | some code =>
      let fails := unmetRequirements db d.definition_id code
      if fails = [] then none else some fails

/-- Modelled from the spec (4.2): resolve the cell for one (definition,
object) pair: linkage fields always present; absent value yields null value,
person id and verdict; Map:Person values project the fixed label of the
referenced entity's kind ("Person") and the stored reference id; every
other type echoes the stored scalar verbatim. -/
def buildCell (db : DB) (d : AttributeDefinition) : Cell :=
  match findValue db d with
  | none =>
      { value := none
        attribute_person_id := none
        preconditions_failed := none
        definition_id := d.definition_id
        attribute_definition_id := d.id
        multi_choice_options := d.multi_choice_options
        multi_choice_mandatory := d.multi_choice_mandatory }
  | some v =>
      if d.attribute_type = "Map:Person" then
        { value := some "Person"
          attribute_person_id := v.attribute_object_id
          preconditions_failed := evalPreconditions db d v.attribute_value
          definition_id := d.definition_id
          attribute_definition_id := d.id
          multi_choice_options := d.multi_choice_options
          multi_choice_mandatory := d.multi_choice_mandatory }
      else
        { value := some v.attribute_value
          attribute_person_id := none
          preconditions_failed := evalPreconditions db d v.attribute_value
          definition_id := d.definition_id
          attribute_definition_id := d.id
          multi_choice_options := d.multi_choice_options
          multi_choice_mandatory := d.multi_choice_mandatory }

/-- Modelled from the spec (4.4): render one Row accumulator, keying each
cell by the contributing object identifier rendered as a string. -/
def renderRow (db : DB) (g : RowGroup) : Row :=
  { title := g.rep.title
    mandatory := g.rep.mandatory
    attribute_type := g.rep.attribute_type
    default_value := g.rep.default_value
    values := g.defs.map (fun d => (toString d.definition_id, buildCell db d)) }

/-- Modelled from the spec (4.5): the lightweight per-object summary. -/
def summarize (o : TargetObject) : AssessmentSummary :=
  { assessment_type := o.assessment_type
    id := o.id
    slug := o.slug
    title := o.title
    status := o.status
    urls_count := (o.evidences.filter (fun k => k = EvidenceKind.url)).length
    files_count := (o.evidences.filter (fun k => k = EvidenceKind.file)).length }

/-- Modelled from the spec (sections 4.4, 4.5 and 2): the whole matrix
aggregation engine, from a resolved ordered identifier list to the final
response structure. -/
def matrixResponse (db : DB) (ids : List Nat) : MatrixResponse :=
  { attributes := (groupRows (loadedDefs db ids)).map (renderRow db)
    assessments := ids.filterMap (fun i => (lookupObj db i).map summarize) }

/-! ## External Query Resolver and request pipeline (modelled from spec 6) -/

/-- Modelled from the spec (6): one `order_by` clause. -/
structure OrderBy where
  name : String
  desc : Bool
deriving DecidableEq, Repr

/-- Insert one object into a list sorted by the given Boolean order. -/
def insertSorted (le : TargetObject → TargetObject → Bool) (o : TargetObject) :
    List TargetObject → List TargetObject
  | [] => [o]
  | x :: xs => if le o x then o :: x :: xs else x :: insertSorted le o xs

/-- Insertion sort by the given Boolean order (stable, deterministic). -/
def sortObjs (le : TargetObject → TargetObject → Bool) (l : List TargetObject) :
    List TargetObject :=
  l.foldr (insertSorted le) []

/-- Modelled from the spec (6): the external Query Resolver, restricted to
the empty filter; `order_by` on `title` sorts the snapshot objects by title
in the requested direction, otherwise the deterministic load order stands. -/
def resolveIds (db : DB) (ob : Option OrderBy) : List Nat :=
  match ob with
  | none => db.objects.map (fun o => o.id)
  | some o =>
      if o.name = "title" then
        (sortObjs
          (fun a b =>
            if o.desc then strLt b.title a.title || b.title == a.title
            else strLt a.title b.title || a.title == b.title)
          db.objects).map (fun x => x.id)
      else db.objects.map (fun o => o.id)

/-- Modelled from the spec (5, 7): one engine invocation as a state
transformer over the read snapshot — the engine is read-only, so the
snapshot passes through unchanged. -/
def runEngine (db : DB) (ob : Option OrderBy) : MatrixResponse × DB :=
  (matrixResponse db (resolveIds db ob), db)

/-! ## Auxiliary predicates and concrete snapshots -/

/-- Invariant of the Row accumulators after the catalog builder has
processed the definition list `pre`: each accumulated group holds exactly
the processed definitions sharing its representative's identity (in load
order), group identities are pairwise distinct, and every processed
definition is covered by some group. -/
def GroupInv (pre : List AttributeDefinition) (gs : List RowGroup) : Prop :=
  (∀ g ∈ gs,
      g.defs = pre.filter (fun x => decide (identityKey x = identityKey g.rep)) ∧
      g.rep ∈ pre) ∧
  (gs.map (fun g => identityKey g.rep)).Nodup ∧
  (∀ d ∈ pre, ∃ g ∈ gs, identityKey g.rep = identityKey d)

/-- A Text LCA like the one of `_get_text_payload`, attached to the given
assessment. -/
def textCad (cadId objId : Nat) : AttributeDefinition :=
  { id := cadId
    definition_id := objId
    title := "CAD Text"
    attribute_type := "Text"
    mandatory := false
    default_value := some ""
    multi_choice_options := none
    multi_choice_mandatory := none }

/-- Concrete snapshot mirroring the `test_order_by` integration test:
three Control assessments titled "B assessment", "C assessment" and
"A assessment" (in load order), each carrying one Text LCA. -/
def orderDemoDB : DB :=
  { objects :=
      [{ id := 1, title := "B assessment", slug := "ASSESSMENT-1",
         status := "Not Started", assessment_type := "Control",
         evidences := [], comments_count := 0 },
       { id := 2, title := "C assessment", slug := "ASSESSMENT-2",
         status := "Not Started", assessment_type := "Control",
         evidences := [], comments_count := 0 },
       { id := 3, title := "A assessment", slug := "ASSESSMENT-3",
         status := "Not Started", assessment_type := "Control",
         evidences := [], comments_count := 0 }]
    definitions := [textCad 11 1, textCad 12 2, textCad 13 3]
    values := [] }

/-- Concrete snapshot mirroring the `test_precondition_failed` integration
test: one assessment with a Dropdown LCA (options `1,3,2`, mask `4,4`)
whose recorded value selects option "1", and no evidence on the object. -/
def dropdownDemoDB : DB :=
  { objects :=
      [{ id := 1, title := "B assessment", slug := "ASSESSMENT-1",
         status := "Not Started", assessment_type := "Control",
         evidences := [], comments_count := 0 }]
    definitions :=
      [{ id := 21
         definition_id := 1
         title := "CAD Dropdown"
         attribute_type := "Dropdown"
         mandatory := false
         default_value := some ""
         multi_choice_options := some "1,3,2"
         multi_choice_mandatory := some "4,4" }]
    values :=
      [{ custom_attribute_id := 21
         attributable_id := 1
         attribute_value := "1"
         attribute_object_id := none }] }

/-- Concrete snapshot mirroring the `test_map_person_value` and
`test_same_cads_one_with_value` integration tests: an assessment with a
Map:Person LCA whose value references person 7, a second assessment with a
Text LCA of the same identity as a Text LCA on the first, the Text value
recorded only on the first. -/
def valueDemoDB : DB :=
  { objects :=
      [{ id := 1, title := "B assessment", slug := "ASSESSMENT-1",
         status := "Not Started", assessment_type := "Control",
         evidences := [], comments_count := 0 },
       { id := 2, title := "C assessment", slug := "ASSESSMENT-2",
         status := "Not Started", assessment_type := "Control",
         evidences := [], comments_count := 0 }]
    definitions :=
      [textCad 31 1, textCad 32 2,
       { id := 33
         definition_id := 1
         title := "CAD Person"
         attribute_type := "Map:Person"
         mandatory := false
         default_value := some ""
         multi_choice_options := none
         multi_choice_mandatory := none }]
    values :=
      [{ custom_attribute_id := 31
         attributable_id := 1
         attribute_value := "test_value"
         attribute_object_id := none },
       { custom_attribute_id := 33
         attributable_id := 1
         attribute_value := "Person"
         attribute_object_id := some 7 }] }

/-- Concrete snapshot mirroring the `test_diff_cads_by_attribute_type`
integration test: a Text LCA and a Checkbox LCA sharing title
"Test Title" and mandatory=true, attached to two different assessments. -/
def diffDemoDB : DB :=
  { objects :=
      [{ id := 1, title := "B assessment", slug := "ASSESSMENT-1",
         status := "Not Started", assessment_type := "Control",
         evidences := [], comments_count := 0 },
       { id := 2, title := "C assessment", slug := "ASSESSMENT-2",
         status := "Not Started", assessment_type := "Control",
         evidences := [], comments_count := 0 }]
    definitions :=
      [{ id := 41
         definition_id := 1
         title := "Test Title"
         attribute_type := "Text"
         mandatory := true
         default_value := some ""
         multi_choice_options := none
         multi_choice_mandatory := none },
       { id := 42
         definition_id := 2
         title := "Test Title"
         attribute_type := "Checkbox"
         mandatory := true
         default_value := some ""
         multi_choice_options := none
         multi_choice_mandatory := none }]
    values := [] }

/-! ## Helper lemmas -/

/-- Splitting a list at the first element satisfying a predicate. -/
theorem exists_first_split {α : Type} (p : α → Prop) [DecidablePred p] :
    ∀ l : List α, (∃ x ∈ l, p x) →
      ∃ l1 x l2, l = l1 ++ x :: l2 ∧ p x ∧ ∀ y ∈ l1, ¬ p y := by
  intro l
  induction l with
  | nil => rintro ⟨x, hx, -⟩; cases hx
  | cons a l ih =>
      intro hex
      by_cases ha : p a
      · exact ⟨[], a, l, rfl, ha, by simp⟩
      · obtain ⟨x, hx, hpx⟩ := hex
        rcases List.mem_cons.mp hx with rfl | hx
        · exact absurd hpx ha
        · obtain ⟨l1, y, l2, hsplit, hpy, hl1⟩ := ih ⟨x, hx, hpx⟩
          refine ⟨a :: l1, y, l2, by rw [hsplit]; rfl, hpy, ?_⟩
          intro z hz
          rcases List.mem_cons.mp hz with rfl | hz
          · exact ha
          · exact hl1 z hz

/-- `insertDef` appends a fresh singleton group when no group matches. -/
theorem insertDef_no_match (d : AttributeDefinition) :
    ∀ gs : List RowGroup, (∀ g ∈ gs, identityKey g.rep ≠ identityKey d) →
      insertDef d gs = gs ++ [⟨d, [d]⟩] := by
  intro gs
  induction gs with
  | nil => intro _; rfl
  | cons g gs ih =>
      intro h
      have hg : ¬ identityKey g.rep = identityKey d := h g (List.mem_cons_self g gs)
      show (if identityKey g.rep = identityKey d then _ else g :: insertDef d gs) = _
      rw [if_neg hg, ih (fun g2 hg2 => h g2 (List.mem_cons_of_mem g hg2))]
      rfl

/-- `insertDef` extends the first matching group in place. -/
theorem insertDef_at_match (d : AttributeDefinition) :
    ∀ (gs1 : List RowGroup) (g0 : RowGroup) (gs2 : List RowGroup),
      (∀ g ∈ gs1, ¬ identityKey g.rep = identityKey d) →
      identityKey g0.rep = identityKey d →
      insertDef d (gs1 ++ g0 :: gs2) =
        gs1 ++ RowGroup.mk g0.rep (g0.defs ++ [d]) :: gs2 := by
  intro gs1
  induction gs1 with
  | nil =>
      intro g0 gs2 _ h0
      show (if identityKey g0.rep = identityKey d then _ else _) = _
      rw [if_pos h0]
      rfl
  | cons g gs1 ih =>
      intro g0 gs2 h1 h0
      have hg : ¬ identityKey g.rep = identityKey d := h1 g (List.mem_cons_self g gs1)
      show (if identityKey g.rep = identityKey d then _
            else g :: insertDef d (gs1 ++ g0 :: gs2)) = _
      rw [if_neg hg, ih g0 gs2 (fun g2 hg2 => h1 g2 (List.mem_cons_of_mem g hg2)) h0]
      rfl

/-- One step of the catalog builder preserves the accumulator invariant. -/
theorem groupInv_insert {pre : List AttributeDefinition} {gs : List RowGroup}
    (d : AttributeDefinition) (h : GroupInv pre gs) :
    GroupInv (pre ++ [d]) (insertDef d gs) := by
  obtain ⟨hdefs, hnodup, hcover⟩ := h
  by_cases hex : ∃ g ∈ gs, identityKey g.rep = identityKey d
  · obtain ⟨gs1, g0, gs2, rfl, hg0, hgs1⟩ :=
      exists_first_split (fun g => identityKey g.rep = identityKey d) gs hex
    rw [insertDef_at_match d gs1 g0 gs2 hgs1 hg0]
    have hg0mem : g0 ∈ gs1 ++ g0 :: gs2 :=
      List.mem_append_right gs1 (List.mem_cons_self g0 gs2)
    have hg2ne : ∀ g ∈ gs2, ¬ identityKey g.rep = identityKey d := by
      intro g hg hk
      have hsplit := hnodup
      rw [List.map_append, List.map_cons, List.nodup_append] at hsplit
      have hhead := hsplit.2.1
      rw [List.nodup_cons] at hhead
      refine hhead.1 ?_
      have : identityKey g0.rep = identityKey g.rep := by rw [hg0, hk]
      rw [this]
      exact List.mem_map_of_mem _ hg
    refine ⟨?_, ?_, ?_⟩
    · intro g hg
      rcases List.mem_append.mp hg with hg | hg
      · obtain ⟨h1, h2⟩ := hdefs g (List.mem_append_left _ hg)
        have hne : ¬ identityKey g.rep = identityKey d := hgs1 g hg
        constructor
        · rw [List.filter_append, h1]
          have hnil :
              List.filter (fun x => decide (identityKey x = identityKey g.rep)) [d]
                = [] := by
            simp only [List.filter, decide_eq_true_eq]
            have : ¬ identityKey d = identityKey g.rep := fun hk => hne hk.symm
            simp [this]
          rw [hnil, List.append_nil]
        · exact List.mem_append_left _ h2
      · rcases List.mem_cons.mp hg with rfl | hg
        · obtain ⟨h1, h2⟩ := hdefs g0 hg0mem
          constructor
          · show g0.defs ++ [d] = _
            rw [List.filter_append, h1]
            have hone :
                List.filter (fun x => decide (identityKey x = identityKey g0.rep)) [d]
                  = [d] := by
              have : identityKey d = identityKey g0.rep := hg0.symm
              simp [List.filter, this]
            rw [hone]
          · exact List.mem_append_left _ h2
        · obtain ⟨h1, h2⟩ := hdefs g
            (List.mem_append_right gs1 (List.mem_cons_of_mem g0 hg))
          have hne : ¬ identityKey g.rep = identityKey d := hg2ne g hg
          constructor
          · rw [List.filter_append, h1]
            have hnil :
                List.filter (fun x => decide (identityKey x = identityKey g.rep)) [d]
                  = [] := by
              have : ¬ identityKey d = identityKey g.rep := fun hk => hne hk.symm
              simp [List.filter, this]
            rw [hnil, List.append_nil]
          · exact List.mem_append_left _ h2
    · simpa only [List.map_append, List.map_cons] using hnodup
    · intro x hx
      rcases List.mem_append.mp hx with hx | hx
      · obtain ⟨g, hg, hk⟩ := hcover x hx
        rcases List.mem_append.mp hg with hg | hg
        · exact ⟨g, List.mem_append_left _ hg, hk⟩
        · rcases List.mem_cons.mp hg with rfl | hg
          · exact ⟨RowGroup.mk g.rep (g.defs ++ [d]),
              List.mem_append_right gs1 (List.mem_cons_self _ _), hk⟩
          · exact ⟨g, List.mem_append_right gs1 (List.mem_cons_of_mem _ hg), hk⟩
      · have hxd : x = d := by simpa using hx
        subst hxd
        exact ⟨RowGroup.mk g0.rep (g0.defs ++ [x]),
          List.mem_append_right gs1 (List.mem_cons_self _ _), hg0⟩
  · push_neg at hex
    rw [insertDef_no_match d gs hex]
    refine ⟨?_, ?_, ?_⟩
    · intro g hg
      rcases List.mem_append.mp hg with hg | hg
      · obtain ⟨h1, h2⟩ := hdefs g hg
        have hne : ¬ identityKey g.rep = identityKey d := hex g hg
        constructor
        · rw [List.filter_append, h1]
          have hnil :
              List.filter (fun x => decide (identityKey x = identityKey g.rep)) [d]
                = [] := by
            have : ¬ identityKey d = identityKey g.rep := fun hk => hne hk.symm
            simp [List.filter, this]
          rw [hnil, List.append_nil]
        · exact List.mem_append_left _ h2
      · have hgd : g = RowGroup.mk d [d] := by simpa using hg
        subst hgd
        constructor
        · show [d] = _
          rw [List.filter_append]
          have hpre :
              List.filter (fun x => decide (identityKey x = identityKey d)) pre
                = [] := by
            rw [List.filter_eq_nil_iff]
            intro x hx hk
            rw [decide_eq_true_eq] at hk
            obtain ⟨g, hg, hk2⟩ := hcover x hx
            exact hex g hg (hk2.trans hk)
          rw [hpre]
          simp [List.filter]
        · exact List.mem_append_right pre (List.mem_cons_self d [])
    · rw [List.map_append]
      refine List.Nodup.append hnodup (by simp) ?_
      intro x hx hx2
      simp only [List.map_cons, List.map_nil, List.mem_singleton] at hx2
      subst hx2
      obtain ⟨g, hg, hk⟩ := List.mem_map.mp hx
      exact hex g hg hk
    · intro x hx
      rcases List.mem_append.mp hx with hx | hx
      · obtain ⟨g, hg, hk⟩ := hcover x hx
        exact ⟨g, List.mem_append_left _ hg, hk⟩
      · have hxd : x = d := by simpa using hx
        subst hxd
        exact ⟨RowGroup.mk x [x],
          List.mem_append_right gs (List.mem_cons_self _ _), rfl⟩

/-- The accumulator invariant lifts through the catalog builder's fold. -/
theorem groupInv_foldl :
    ∀ (ds pre : List AttributeDefinition) (gs : List RowGroup),
      GroupInv pre gs →
      GroupInv (pre ++ ds) (ds.foldl (fun acc d => insertDef d acc) gs) := by
  intro ds
  induction ds with
  | nil => intro pre gs h; simpa using h
  | cons d ds ih =>
      intro pre gs h
      have h2 := ih (pre ++ [d]) (insertDef d gs) (groupInv_insert d h)
      simpa [List.append_assoc] using h2

/-- The catalog builder's output satisfies the grouping invariant. -/
theorem groupRows_inv (defs : List AttributeDefinition) :
    GroupInv defs (groupRows defs) := by
  have hbase : GroupInv [] [] := by
    refine ⟨?_, ?_, ?_⟩
    · intro g hg; cases hg
    · simp
    · intro x hx; cases hx
  have h := groupInv_foldl defs [] [] hbase
  simpa [groupRows] using h

/-- Each group's definition list is the load-ordered sublist of loaded
definitions sharing its identity. -/
theorem groupRows_defs_eq {defs : List AttributeDefinition} {g : RowGroup}
    (hg : g ∈ groupRows defs) :
    g.defs = defs.filter (fun x => decide (identityKey x = identityKey g.rep)) :=
  ((groupRows_inv defs).1 g hg).1

/-- Each group's representative is one of the loaded definitions. -/
theorem groupRows_rep_mem {defs : List AttributeDefinition} {g : RowGroup}
    (hg : g ∈ groupRows defs) : g.rep ∈ defs :=
  ((groupRows_inv defs).1 g hg).2

/-- Group identities are pairwise distinct. -/
theorem groupRows_keys_nodup (defs : List AttributeDefinition) :
    ((groupRows defs).map (fun g => identityKey g.rep)).Nodup :=
  (groupRows_inv defs).2.1

/-- Every loaded definition is covered by a group of its identity. -/
theorem groupRows_cover {defs : List AttributeDefinition}
    {d : AttributeDefinition} (hd : d ∈ defs) :
    ∃ g ∈ groupRows defs, identityKey g.rep = identityKey d :=
  (groupRows_inv defs).2.2 d hd

/-- A group always contains its representative definition. -/
theorem groupRows_rep_mem_defs {defs : List AttributeDefinition} {g : RowGroup}
    (hg : g ∈ groupRows defs) : g.rep ∈ g.defs := by
  rw [groupRows_defs_eq hg]
  exact List.mem_filter.mpr ⟨groupRows_rep_mem hg, by simp⟩

/-- Rendering preserves the grouping identity. -/
theorem rowKey_renderRow (db : DB) (g : RowGroup) :
    rowKey (renderRow db g) = identityKey g.rep := rfl

/-- The response's row identities, in order, are the group identities. -/
theorem attributes_map_rowKey (db : DB) (ids : List Nat) :
    (matrixResponse db ids).attributes.map rowKey =
      (groupRows (loadedDefs db ids)).map (fun g => identityKey g.rep) := by
  show ((groupRows (loadedDefs db ids)).map (renderRow db)).map rowKey = _
  rw [List.map_map]
  rfl

/-- `filterMap` over a list on which the function never fails keeps the
length and maps positions one to one. -/
theorem filterMap_total {α β : Type} (f : α → Option β) :
    ∀ l : List α, (∀ a ∈ l, (f a).isSome = true) →
      (l.filterMap f).length = l.length ∧
      ∀ (k : Nat) (a : α), l[k]? = some a → (l.filterMap f)[k]? = f a := by
  intro l
  induction l with
  | nil =>
      intro _
      exact ⟨rfl, by intro k a hk; simp at hk⟩
  | cons a l ih =>
      intro h
      obtain ⟨b, hb⟩ := Option.isSome_iff_exists.mp (h a (List.mem_cons_self a l))
      have hrest := ih (fun x hx => h x (List.mem_cons_of_mem a hx))
      rw [List.filterMap_cons, hb]
      refine ⟨by simp [hrest.1], ?_⟩
      intro k x hk
      cases k with
      | zero =>
          have hxa : a = x := by simpa using hk
          subst hxa
          simp [hb]
      | succ k =>
          simp only [List.getElem?_cons_succ] at hk ⊢
          exact hrest.2 k x hk

/-- With a recorded value present, both projection branches of `buildCell`
carry the precondition verdict computed from the stored scalar. -/
theorem buildCell_pf_of_value {db : DB} {d : AttributeDefinition}
    {av : AttributeValue} (hv : findValue db d = some av) :
    (buildCell db d).preconditions_failed =
      evalPreconditions db d av.attribute_value := by
  simp only [buildCell, hv]
  by_cases hmp : d.attribute_type = "Map:Person"
  · rw [if_pos hmp]
  · rw [if_neg hmp]

/-- With a recorded value present, the cell's value is never null. -/
theorem buildCell_value_of_value {db : DB} {d : AttributeDefinition}
    {av : AttributeValue} (hv : findValue db d = some av) :
    (buildCell db d).value =
      (if d.attribute_type = "Map:Person" then some "Person"
       else some av.attribute_value) := by
  simp only [buildCell, hv]
  by_cases hmp : d.attribute_type = "Map:Person"
  · rw [if_pos hmp, if_pos hmp]
  · rw [if_neg hmp, if_neg hmp]

/-- Linkage fields of a cell are fixed by its definition, on every branch. -/
theorem buildCell_linkage (db : DB) (d : AttributeDefinition) :
    (buildCell db d).definition_id = d.definition_id ∧
    (buildCell db d).attribute_definition_id = d.id ∧
    (buildCell db d).multi_choice_options = d.multi_choice_options ∧
    (buildCell db d).multi_choice_mandatory = d.multi_choice_mandatory := by
  rcases hfv : findValue db d with _ | av <;> simp only [buildCell, hfv]
  · simp
  · by_cases hmp : d.attribute_type = "Map:Person"
    · rw [if_pos hmp]; simp
    · rw [if_neg hmp]; simp

/-- Membership in a conditional singleton chunk. -/
theorem mem_if_singleton {c : Bool} {s x : String} :
    (x ∈ if c = true then [s] else []) ↔ (c = true ∧ x = s) := by
  by_cases h : c = true <;> simp [h]

/-- Membership in the unmet-requirement list, by requirement name. -/
theorem unmet_mem (db : DB) (objId : Nat) (code : Nat) :
    ("comment" ∈ unmetRequirements db objId code ↔
        code.testBit 0 = true ∧ hasComment db objId = false) ∧
    ("evidence" ∈ unmetRequirements db objId code ↔
        code.testBit 1 = true ∧ hasEvidence db objId = false) ∧
    ("url" ∈ unmetRequirements db objId code ↔
        code.testBit 2 = true ∧ hasUrlEvidence db objId = false) := by
  have hsplit : ∀ x : String, x ∈ unmetRequirements db objId code ↔
      (((code.testBit 0 && !hasComment db objId) = true ∧ x = "comment") ∨
        ((code.testBit 1 && !hasEvidence db objId) = true ∧ x = "evidence") ∨
          ((code.testBit 2 && !hasUrlEvidence db objId) = true ∧ x = "url")) := by
    intro x
    unfold unmetRequirements
    rw [List.mem_append, List.mem_append, mem_if_singleton, mem_if_singleton,
        mem_if_singleton, or_assoc]
  refine ⟨?_, ?_, ?_⟩ <;> rw [hsplit] <;> constructor
  · rintro (⟨h, -⟩ | ⟨-, h⟩ | ⟨-, h⟩)
    · rw [Bool.and_eq_true, Bool.not_eq_true'] at h
      exact h
    · exact absurd h (by decide)
    · exact absurd h (by decide)
  · rintro ⟨hbit, hsat⟩
    refine Or.inl ⟨?_, rfl⟩
    rw [Bool.and_eq_true, Bool.not_eq_true']
    exact ⟨hbit, hsat⟩
  · rintro (⟨-, h⟩ | ⟨h, -⟩ | ⟨-, h⟩)
    · exact absurd h (by decide)
    · rw [Bool.and_eq_true, Bool.not_eq_true'] at h
      exact h
    · exact absurd h (by decide)
  · rintro ⟨hbit, hsat⟩
    refine Or.inr (Or.inl ⟨?_, rfl⟩)
    rw [Bool.and_eq_true, Bool.not_eq_true']
    exact ⟨hbit, hsat⟩
  · rintro (⟨-, h⟩ | ⟨-, h⟩ | ⟨h, -⟩)
    · exact absurd h (by decide)
    · exact absurd h (by decide)
    · rw [Bool.and_eq_true, Bool.not_eq_true'] at h
      exact h
  · rintro ⟨hbit, hsat⟩
    refine Or.inr (Or.inr ⟨?_, rfl⟩)
    rw [Bool.and_eq_true, Bool.not_eq_true']
    exact ⟨hbit, hsat⟩

/-- The unmet-requirement list always follows the fixed enumeration order
comment, evidence, url. -/
theorem unmet_sublist (db : DB) (objId : Nat) (code : Nat) :
    (unmetRequirements db objId code).Sublist ["comment", "evidence", "url"] := by
  unfold unmetRequirements
  have hc : (if (code.testBit 0 && !hasComment db objId) = true
      then ["comment"] else ([] : List String)).Sublist ["comment"] := by
    by_cases h : (code.testBit 0 && !hasComment db objId) = true
    · rw [if_pos h]
    · rw [if_neg h]; exact List.nil_sublist _
  have he : (if (code.testBit 1 && !hasEvidence db objId) = true
      then ["evidence"] else ([] : List String)).Sublist ["evidence"] := by
    by_cases h : (code.testBit 1 && !hasEvidence db objId) = true
    · rw [if_pos h]
    · rw [if_neg h]; exact List.nil_sublist _
  have hu : (if (code.testBit 2 && !hasUrlEvidence db objId) = true
      then ["url"] else ([] : List String)).Sublist ["url"] := by
    by_cases h : (code.testBit 2 && !hasUrlEvidence db objId) = true
    · rw [if_pos h]
    · rw [if_neg h]; exact List.nil_sublist _
  have := List.Sublist.append (List.Sublist.append hc he) hu
  simpa using this

/-- Without a mask the selected-option requirement code is undefined. -/
theorem selectedCode_none_of_no_mask {d : AttributeDefinition}
    (hmand : d.multi_choice_mandatory = none) (v : String) :
    selectedCode d v = none := by
  unfold selectedCode
  rcases hopts : d.multi_choice_options with _ | opts <;> rw [hmand]

/-- The verdict is null when no requirement code is selected. -/
theorem evalPre_none_of_code_none {db : DB} {d : AttributeDefinition}
    {v : String} (hc : selectedCode d v = none) :
    evalPreconditions db d v = none := by
  unfold evalPreconditions
  rw [hc]

/-- The verdict under a selected requirement code. -/
theorem evalPre_some_code (db : DB) {d : AttributeDefinition} {v : String}
    {code : Nat} (hc : selectedCode d v = some code) :
    evalPreconditions db d v =
      (if unmetRequirements db d.definition_id code = [] then none
        else some (unmetRequirements db d.definition_id code)) := by
  unfold evalPreconditions
  rw [hc]

/-- When every requirement the code declares is satisfied, nothing is
unmet. -/
theorem unmet_nil_of_satisfied {db : DB} {objId : Nat} {code : Nat}
    (hcom : code.testBit 0 = true → hasComment db objId = true)
    (hev : code.testBit 1 = true → hasEvidence db objId = true)
    (hurl : code.testBit 2 = true → hasUrlEvidence db objId = true) :
    unmetRequirements db objId code = [] := by
  have h1 : (code.testBit 0 && !hasComment db objId) = false := by
    cases hb : code.testBit 0
    · rfl
    · rw [hcom hb]
      rfl
  have h2 : (code.testBit 1 && !hasEvidence db objId) = false := by
    cases hb : code.testBit 1
    · rfl
    · rw [hev hb]
      rfl
  have h3 : (code.testBit 2 && !hasUrlEvidence db objId) = false := by
    cases hb : code.testBit 2
    · rfl
    · rw [hurl hb]
      rfl
  unfold unmetRequirements
  rw [if_neg (by rw [h1]; exact Bool.false_ne_true),
    if_neg (by rw [h2]; exact Bool.false_ne_true),
    if_neg (by rw [h3]; exact Bool.false_ne_true)]
  rfl

/-- Splitting never produces an empty chunk list. -/
theorem splitOnChar_ne_nil (c : Char) : ∀ xs : List Char, splitOnChar c xs ≠ [] := by
  intro xs
  induction xs with
  | nil => simp [splitOnChar]
  | cons x xs ih =>
      unfold splitOnChar
      by_cases hx : x = c
      · rw [if_pos hx]
        simp
      · rw [if_neg hx]
        rcases hr : splitOnChar c xs with _ | ⟨y, ys⟩
        · simp
        · simp

/-- Splitting a separator-free character list yields one chunk. -/
theorem splitOnChar_of_no_sep (c : Char) :
    ∀ xs : List Char, (∀ x ∈ xs, x ≠ c) → splitOnChar c xs = [xs] := by
  intro xs
  induction xs with
  | nil => intro _; rfl
  | cons x xs ih =>
      intro h
      have hx : ¬ x = c := h x (List.mem_cons_self x xs)
      unfold splitOnChar
      rw [if_neg hx, ih (fun y hy => h y (List.mem_cons_of_mem x hy))]

/-- Splitting peels off a separator-free prefix before a separator. -/
theorem splitOnChar_prefix (c : Char) :
    ∀ (xs rest : List Char), (∀ x ∈ xs, x ≠ c) →
      splitOnChar c (xs ++ c :: rest) = xs :: splitOnChar c rest := by
  intro xs
  induction xs with
  | nil =>
      intro rest _
      show splitOnChar c (c :: rest) = [] :: splitOnChar c rest
      simp only [splitOnChar]
      rw [if_pos trivial]
  | cons x xs ih =>
      intro rest h
      have hx : ¬ x = c := h x (List.mem_cons_self x xs)
      show splitOnChar c (x :: (xs ++ c :: rest)) = _
      simp only [splitOnChar]
      rw [if_neg hx, ih rest (fun y hy => h y (List.mem_cons_of_mem x hy))]

/-- Every chunk a split produces is separator-free. -/
theorem splitOnChar_chunks_no_sep (c : Char) :
    ∀ xs : List Char, ∀ chunk ∈ splitOnChar c xs, ∀ ch ∈ chunk, ch ≠ c := by
  intro xs
  induction xs with
  | nil =>
      intro chunk hc ch hch
      have : chunk = [] := by simpa [splitOnChar] using hc
      subst this
      cases hch
  | cons x xs ih =>
      intro chunk hc ch hch
      unfold splitOnChar at hc
      by_cases hx : x = c
      · rw [if_pos hx] at hc
        rcases List.mem_cons.mp hc with rfl | hc
        · cases hch
        · exact ih chunk hc ch hch
      · rw [if_neg hx] at hc
        rcases hr : splitOnChar c xs with _ | ⟨y, ys⟩
        · exact absurd hr (splitOnChar_ne_nil c xs)
        · rw [hr] at hc
          rcases List.mem_cons.mp hc with rfl | hc
          · rcases List.mem_cons.mp hch with rfl | hch
            · exact hx
            · exact ih y (by rw [hr]; exact List.mem_cons_self y ys) ch hch
          · exact ih chunk (by rw [hr]; exact List.mem_cons_of_mem y hc) ch hch

/-- Rebuilding a string from `String.mk` of its characters. -/
theorem string_mk_data (s : String) : String.mk s.data = s := by
  cases s
  rfl

/-- Character list of a concatenation. -/
theorem string_data_append (a b : String) : (a ++ b).data = a.data ++ b.data := by
  cases a
  cases b
  rfl

/-- Joining comma-free names and splitting again recovers the names. -/
theorem splitComma_joinComma :
    ∀ l : List String, l ≠ [] →
      (∀ s ∈ l, ∀ ch ∈ s.data, ch ≠ ',') →
      splitComma (joinComma l) = l := by
  intro l
  induction l with
  | nil => intro h _; exact absurd rfl h
  | cons s rest ih =>
      intro _ hfree
      rcases rest with _ | ⟨t, rest2⟩
      · show splitComma s = [s]
        unfold splitComma
        rw [splitOnChar_of_no_sep ','
          s.data (hfree s (List.mem_cons_self s []))]
        rw [List.map_singleton, string_mk_data]
      · show splitComma (s ++ "," ++ joinComma (t :: rest2)) = s :: t :: rest2
        unfold splitComma
        have hdata : (s ++ "," ++ joinComma (t :: rest2)).data =
            s.data ++ ',' :: (joinComma (t :: rest2)).data := by
          rw [string_data_append, string_data_append, List.append_assoc]
          rfl
        rw [hdata, splitOnChar_prefix ',' s.data (joinComma (t :: rest2)).data
          (hfree s (List.mem_cons_self s (t :: rest2)))]
        rw [List.map_cons, string_mk_data]
        have hrest := ih (by simp)
          (fun x hx ch hch => hfree x (List.mem_cons_of_mem s hx) ch hch)
        have : (splitOnChar ',' (joinComma (t :: rest2)).data).map
            (fun cs => String.mk cs) = t :: rest2 := hrest
        rw [this]

/-- Names coming out of a comma split never contain a comma. -/
theorem splitComma_mem_no_comma {value : String} {s : String}
    (hs : s ∈ splitComma value) : ∀ ch ∈ s.data, ch ≠ ',' := by
  unfold splitComma at hs
  obtain ⟨chunk, hchunk, rfl⟩ := List.mem_map.mp hs
  intro ch hch
  exact splitOnChar_chunks_no_sep ',' value.data chunk hchunk ch hch

/-! ## Claim theorems -/

/-- C10: `Commentable.validate_recipients` returns the empty string on
empty or commas-only input; when every non-empty comma-separated name is a
valid recipient it returns a comma-separated string whose set of names is
the set of distinct non-empty input names; otherwise it raises
`ValueError`. -/
theorem validate_recipients_behaviour (value : String) :
    ((splitComma value).filter (fun n => n ≠ "") = [] →
        validate_recipients value = Except.ok "") ∧
    ((splitComma value).filter (fun n => n ≠ "") ≠ [] →
      (∀ n ∈ (splitComma value).filter (fun n => n ≠ ""), n ∈ VALID_RECIPIENTS) →
        validate_recipients value = Except.ok (joinComma (recipientNames value)) ∧
        (splitComma (joinComma (recipientNames value))).toFinset =
          ((splitComma value).filter (fun n => n ≠ "")).toFinset ∧
        (recipientNames value).Nodup) ∧
    ((∃ n ∈ (splitComma value).filter (fun n => n ≠ ""), n ∉ VALID_RECIPIENTS) →
        ∃ e, validate_recipients value = Except.error e) := by
  refine ⟨?_, ?_, ?_⟩
  · intro h
    have hnames : recipientNames value = [] := by
      rw [recipientNames, h, List.dedup_nil]
    unfold validate_recipients
    simp only [hnames]
    rw [if_neg (by simp)]
    simp
  · intro hne hval
    have hdne : recipientNames value ≠ [] := by
      simp only [recipientNames, ne_eq, List.dedup_eq_nil]
      exact hne
    have hall : (recipientNames value).all
        (fun n => VALID_RECIPIENTS.contains n) = true := by
      rw [List.all_eq_true]
      intro n hn
      have hmem : n ∈ (splitComma value).filter (fun n => n ≠ "") :=
        List.mem_dedup.mp hn
      exact List.elem_eq_true_of_mem (hval n hmem)
    refine ⟨?_, ?_, ?_⟩
    · unfold validate_recipients
      rw [if_pos ⟨hdne, hall⟩]
    · have hfree : ∀ s ∈ recipientNames value, ∀ ch ∈ s.data, ch ≠ ',' := by
        intro s hs
        have hmem : s ∈ splitComma value :=
          List.mem_of_mem_filter (List.mem_dedup.mp hs)
        exact splitComma_mem_no_comma hmem
      rw [splitComma_joinComma (recipientNames value) hdne hfree]
      ext a
      simp [recipientNames, List.mem_toFinset, List.mem_dedup]
    · exact List.nodup_dedup _
  · rintro ⟨n, hn, hnv⟩
    refine ⟨recipientNames value, ?_⟩
    have hdne : recipientNames value ≠ [] := by
      simp only [recipientNames, ne_eq, List.dedup_eq_nil]
      intro h
      rw [h] at hn
      cases hn
    have hnall : ¬ ((recipientNames value) ≠ [] ∧ (recipientNames value).all
        (fun n => VALID_RECIPIENTS.contains n) = true) := by
      rintro ⟨-, hall⟩
      rw [List.all_eq_true] at hall
      have hmem : n ∈ recipientNames value := List.mem_dedup.mpr hn
      exact hnv (List.mem_of_elem_eq_true (hall n hmem))
    unfold validate_recipients
    rw [if_neg hnall, if_neg hdne]

/-- C10 witness at the input "Admin,,Admin". -/
theorem validate_recipients_behaviour_witness :
    (splitComma "Admin,,Admin").filter (fun n => n ≠ "") ≠ [] ∧
    (∀ n ∈ (splitComma "Admin,,Admin").filter (fun n => n ≠ ""),
        n ∈ VALID_RECIPIENTS) ∧
    (validate_recipients "Admin,,Admin" =
        Except.ok (joinComma (recipientNames "Admin,,Admin")) ∧
      (splitComma (joinComma (recipientNames "Admin,,Admin"))).toFinset =
        ((splitComma "Admin,,Admin").filter (fun n => n ≠ "")).toFinset ∧
      (recipientNames "Admin,,Admin").Nodup) :=
  ⟨by decide, by decide,
    (validate_recipients_behaviour "Admin,,Admin").2.1 (by decide) (by decide)⟩

/-- C1: the response's assessments array has exactly one summary per
resolved object identifier, in resolved order, each carrying the object's
type, id, slug, title, status and evidence counts; with an explicit
order-by clause on title descending, assessments titled "B assessment",
"C assessment", "A assessment" come back ordered "C", "B", "A". -/
theorem assessments_one_per_resolved_in_order (db : DB) (ids : List Nat)
    (hres : ∀ i ∈ ids, (lookupObj db i).isSome = true) :
    ((matrixResponse db ids).assessments.length = ids.length ∧
      ∀ (k : Nat) (i : Nat), ids[k]? = some i →
        ∃ o, lookupObj db i = some o ∧
          (matrixResponse db ids).assessments[k]? = some (summarize o)) ∧
    (matrixResponse orderDemoDB
          (resolveIds orderDemoDB (some (OrderBy.mk "title" true)))).assessments.map
        (fun a => a.title) =
      ["C assessment", "B assessment", "A assessment"] := by
  constructor
  · have hass : (matrixResponse db ids).assessments =
        ids.filterMap (fun i => (lookupObj db i).map summarize) := rfl
    have h := filterMap_total (fun i => (lookupObj db i).map summarize) ids
      (fun i hi => by
        obtain ⟨o, ho⟩ := Option.isSome_iff_exists.mp (hres i hi)
        simp [ho])
    refine ⟨by rw [hass]; exact h.1, ?_⟩
    intro k i hk
    have hmem : i ∈ ids := List.getElem?_mem hk
    obtain ⟨o, ho⟩ := Option.isSome_iff_exists.mp (hres i hmem)
    refine ⟨o, ho, ?_⟩
    have h2 := h.2 k i hk
    rw [hass, h2]
    show Option.map summarize (lookupObj db i) = some (summarize o)
    rw [ho]
    rfl
  · decide

/-- C1 witness at the three-assessment snapshot `orderDemoDB`. -/
theorem assessments_one_per_resolved_in_order_witness :
    (∀ i ∈ [2, 1, 3], (lookupObj orderDemoDB i).isSome = true) ∧
    (((matrixResponse orderDemoDB [2, 1, 3]).assessments.length =
          [2, 1, 3].length ∧
        ∀ (k : Nat) (i : Nat), [2, 1, 3][k]? = some i →
          ∃ o, lookupObj orderDemoDB i = some o ∧
            (matrixResponse orderDemoDB [2, 1, 3]).assessments[k]? =
              some (summarize o)) ∧
      (matrixResponse orderDemoDB
            (resolveIds orderDemoDB (some (OrderBy.mk "title" true)))).assessments.map
          (fun a => a.title) =
        ["C assessment", "B assessment", "A assessment"]) :=
  ⟨by decide, assessments_one_per_resolved_in_order orderDemoDB [2, 1, 3] (by decide)⟩

/-- C2: two definitions on different objects agreeing on the identity
tuple yield exactly one Row of that identity (row identities are unique in
a response), whose values map holds one entry per contributing object,
keyed by the stringified object identifier. -/
theorem same_identity_defs_collapse_to_one_row (db : DB) (ids : List Nat)
    (d1 d2 : AttributeDefinition)
    (h1 : d1 ∈ loadedDefs db ids) (h2 : d2 ∈ loadedDefs db ids)
    (_hobj : d1.definition_id ≠ d2.definition_id)
    (hkey : identityKey d1 = identityKey d2) :
    ((matrixResponse db ids).attributes.map rowKey).Nodup ∧
    ∃ r ∈ (matrixResponse db ids).attributes,
      rowKey r = identityKey d1 ∧
      (toString d1.definition_id, buildCell db d1) ∈ r.values ∧
      (toString d2.definition_id, buildCell db d2) ∈ r.values ∧
      r.values.map Prod.fst =
        ((loadedDefs db ids).filter
            (fun x => decide (identityKey x = identityKey d1))).map
          (fun x => toString x.definition_id) := by
  constructor
  · rw [attributes_map_rowKey]
    exact groupRows_keys_nodup _
  · obtain ⟨g, hg, hgk⟩ := groupRows_cover h1
    refine ⟨renderRow db g, List.mem_map_of_mem (renderRow db) hg, ?_, ?_, ?_, ?_⟩
    · rw [rowKey_renderRow]
      exact hgk
    · have hd1 : d1 ∈ g.defs := by
        rw [groupRows_defs_eq hg]
        exact List.mem_filter.mpr ⟨h1, by rw [decide_eq_true_eq]; exact hgk.symm⟩
      exact List.mem_map_of_mem _ hd1
    · have hd2 : d2 ∈ g.defs := by
        rw [groupRows_defs_eq hg]
        refine List.mem_filter.mpr ⟨h2, ?_⟩
        rw [decide_eq_true_eq, ← hkey]
        exact hgk.symm
      exact List.mem_map_of_mem _ hd2
    · show (g.defs.map fun d => (toString d.definition_id, buildCell db d)).map
          Prod.fst = _
      rw [List.map_map, groupRows_defs_eq hg, hgk]
      rfl

/-- C2 witness: the two Text LCAs of `valueDemoDB` share an identity and
sit on assessments 1 and 2. -/
theorem same_identity_defs_collapse_to_one_row_witness :
    textCad 31 1 ∈ loadedDefs valueDemoDB [1, 2] ∧
    textCad 32 2 ∈ loadedDefs valueDemoDB [1, 2] ∧
    (textCad 31 1).definition_id ≠ (textCad 32 2).definition_id ∧
    identityKey (textCad 31 1) = identityKey (textCad 32 2) ∧
    (((matrixResponse valueDemoDB [1, 2]).attributes.map rowKey).Nodup ∧
      ∃ r ∈ (matrixResponse valueDemoDB [1, 2]).attributes,
        rowKey r = identityKey (textCad 31 1) ∧
        (toString (textCad 31 1).definition_id,
            buildCell valueDemoDB (textCad 31 1)) ∈ r.values ∧
        (toString (textCad 32 2).definition_id,
            buildCell valueDemoDB (textCad 32 2)) ∈ r.values ∧
        r.values.map Prod.fst =
          ((loadedDefs valueDemoDB [1, 2]).filter
              (fun x => decide (identityKey x = identityKey (textCad 31 1)))).map
            (fun x => toString x.definition_id)) :=
  ⟨by decide, by decide, by decide, by decide,
    same_identity_defs_collapse_to_one_row valueDemoDB [1, 2]
      (textCad 31 1) (textCad 32 2) (by decide) (by decide) (by decide) (by decide)⟩

/-- C6: two definitions differing in title, mandatory or attribute type
always land in two separate Rows, whether attached to the same object or
to different ones. -/
theorem distinct_identity_defs_separate_rows (db : DB) (ids : List Nat)
    (d1 d2 : AttributeDefinition)
    (h1 : d1 ∈ loadedDefs db ids) (h2 : d2 ∈ loadedDefs db ids)
    (hdiff : d1.title ≠ d2.title ∨ d1.mandatory ≠ d2.mandatory ∨
      d1.attribute_type ≠ d2.attribute_type) :
    ∃ r1 ∈ (matrixResponse db ids).attributes,
      ∃ r2 ∈ (matrixResponse db ids).attributes,
        rowKey r1 = identityKey d1 ∧ rowKey r2 = identityKey d2 ∧ r1 ≠ r2 := by
  have hkey : identityKey d1 ≠ identityKey d2 := by
    intro h
    have ht : d1.title = d2.title := congrArg (fun t => t.1) h
    have ha : d1.attribute_type = d2.attribute_type :=
      congrArg (fun t => t.2.1) h
    have hm : d1.mandatory = d2.mandatory := congrArg (fun t => t.2.2.1) h
    rcases hdiff with hd | hd | hd
    · exact hd ht
    · exact hd hm
    · exact hd ha
  obtain ⟨g1, hg1, hg1k⟩ := groupRows_cover h1
  obtain ⟨g2, hg2, hg2k⟩ := groupRows_cover h2
  refine ⟨renderRow db g1, List.mem_map_of_mem (renderRow db) hg1,
    renderRow db g2, List.mem_map_of_mem (renderRow db) hg2, ?_, ?_, ?_⟩
  · rw [rowKey_renderRow]; exact hg1k
  · rw [rowKey_renderRow]; exact hg2k
  · intro heq
    apply hkey
    calc identityKey d1 = rowKey (renderRow db g1) := hg1k.symm
      _ = rowKey (renderRow db g2) := by rw [heq]
      _ = identityKey d2 := hg2k

/-- C6 witness: the Text and Checkbox LCAs of `diffDemoDB`. -/
theorem distinct_identity_defs_separate_rows_witness :
    (diffDemoDB.definitions.get ⟨0, by decide⟩ ∈ loadedDefs diffDemoDB [1, 2]) ∧
    (diffDemoDB.definitions.get ⟨1, by decide⟩ ∈ loadedDefs diffDemoDB [1, 2]) ∧
    (∃ r1 ∈ (matrixResponse diffDemoDB [1, 2]).attributes,
      ∃ r2 ∈ (matrixResponse diffDemoDB [1, 2]).attributes,
        rowKey r1 = identityKey (diffDemoDB.definitions.get ⟨0, by decide⟩) ∧
        rowKey r2 = identityKey (diffDemoDB.definitions.get ⟨1, by decide⟩) ∧
        r1 ≠ r2) :=
  ⟨by decide, by decide,
    distinct_identity_defs_separate_rows diffDemoDB [1, 2]
      (diffDemoDB.definitions.get ⟨0, by decide⟩)
      (diffDemoDB.definitions.get ⟨1, by decide⟩)
      (by decide) (by decide) (by decide)⟩

/-- C4: a recorded Map:Person value projects the referenced entity's fixed
type label as `value` (never the raw stored string) and the stored
reference identifier as `attribute_person_id`; every other type echoes the
stored scalar verbatim with a null `attribute_person_id`. -/
theorem map_person_projection (db : DB) (d : AttributeDefinition)
    (av : AttributeValue) (hv : findValue db d = some av) :
    (d.attribute_type = "Map:Person" →
      (buildCell db d).value = some "Person" ∧
      (buildCell db d).attribute_person_id = av.attribute_object_id) ∧
    (d.attribute_type ≠ "Map:Person" →
      (buildCell db d).value = some av.attribute_value ∧
      (buildCell db d).attribute_person_id = none) := by
  constructor
  · intro hmp
    constructor
    · rw [buildCell_value_of_value hv, if_pos hmp]
    · simp only [buildCell, hv]
      rw [if_pos hmp]
  · intro hmp
    constructor
    · rw [buildCell_value_of_value hv, if_neg hmp]
    · simp only [buildCell, hv]
      rw [if_neg hmp]

/-- C4 witness: the Map:Person cell of `valueDemoDB` (person 7) and the
Text cell holding "test_value". -/
theorem map_person_projection_witness :
    (findValue valueDemoDB (valueDemoDB.definitions.get ⟨2, by decide⟩) =
        some (valueDemoDB.values.get ⟨1, by decide⟩) ∧
      ((valueDemoDB.definitions.get ⟨2, by decide⟩).attribute_type =
          "Map:Person" →
        (buildCell valueDemoDB (valueDemoDB.definitions.get ⟨2, by decide⟩)).value =
            some "Person" ∧
          (buildCell valueDemoDB
              (valueDemoDB.definitions.get ⟨2, by decide⟩)).attribute_person_id =
            (valueDemoDB.values.get ⟨1, by decide⟩).attribute_object_id)) ∧
    (findValue valueDemoDB (textCad 31 1) =
        some (valueDemoDB.values.get ⟨0, by decide⟩) ∧
      ((textCad 31 1).attribute_type ≠ "Map:Person" →
        (buildCell valueDemoDB (textCad 31 1)).value =
            some (valueDemoDB.values.get ⟨0, by decide⟩).attribute_value ∧
          (buildCell valueDemoDB (textCad 31 1)).attribute_person_id = none)) :=
  ⟨⟨by decide,
      (map_person_projection valueDemoDB (valueDemoDB.definitions.get ⟨2, by decide⟩)
          (valueDemoDB.values.get ⟨1, by decide⟩) (by decide)).1⟩,
    ⟨by decide,
      (map_person_projection valueDemoDB (textCad 31 1)
          (valueDemoDB.values.get ⟨0, by decide⟩) (by decide)).2⟩⟩

/-- C5: a (definition, object) pair with no recorded value yields a cell
with null value, person id and verdict, and a cell's value is null exactly
when no value is recorded; linkage fields and the definition's option
fields are carried on every branch. -/
theorem absent_value_cell_null_fields (db : DB) (d : AttributeDefinition) :
    ((buildCell db d).value = none ↔ findValue db d = none) ∧
    (findValue db d = none →
      (buildCell db d).attribute_person_id = none ∧
      (buildCell db d).preconditions_failed = none) ∧
    (buildCell db d).definition_id = d.definition_id ∧
    (buildCell db d).attribute_definition_id = d.id ∧
    (buildCell db d).multi_choice_options = d.multi_choice_options ∧
    (buildCell db d).multi_choice_mandatory = d.multi_choice_mandatory := by
  obtain ⟨hl1, hl2, hl3, hl4⟩ := buildCell_linkage db d
  refine ⟨⟨?_, ?_⟩, ?_, hl1, hl2, hl3, hl4⟩
  · intro hval
    by_contra hne
    obtain ⟨av, hav⟩ := Option.ne_none_iff_exists'.mp hne
    rw [buildCell_value_of_value hav] at hval
    by_cases hmp : d.attribute_type = "Map:Person"
    · rw [if_pos hmp] at hval
      cases hval
    · rw [if_neg hmp] at hval
      cases hval
  · intro hnone
    simp [buildCell, hnone]
  · intro hnone
    simp [buildCell, hnone]

/-- C5 witness: the valueless Text cell on assessment 2 of `valueDemoDB`. -/
theorem absent_value_cell_null_fields_witness :
    (((buildCell valueDemoDB (textCad 32 2)).value = none ↔
        findValue valueDemoDB (textCad 32 2) = none) ∧
      (findValue valueDemoDB (textCad 32 2) = none →
        (buildCell valueDemoDB (textCad 32 2)).attribute_person_id = none ∧
        (buildCell valueDemoDB (textCad 32 2)).preconditions_failed = none) ∧
      (buildCell valueDemoDB (textCad 32 2)).definition_id =
        (textCad 32 2).definition_id ∧
      (buildCell valueDemoDB (textCad 32 2)).attribute_definition_id =
        (textCad 32 2).id ∧
      (buildCell valueDemoDB (textCad 32 2)).multi_choice_options =
        (textCad 32 2).multi_choice_options ∧
      (buildCell valueDemoDB (textCad 32 2)).multi_choice_mandatory =
        (textCad 32 2).multi_choice_mandatory) ∧
    findValue valueDemoDB (textCad 32 2) = none :=
  ⟨absent_value_cell_null_fields valueDemoDB (textCad 32 2), by decide⟩

/-- C7: `preconditions_failed` is null — never an empty list — when the
cell's value is null, when the definition carries no mask, when the mask
declares no code for the selected option, and when every declared
requirement is satisfied. -/
theorem preconditions_null_never_empty_list (db : DB) (d : AttributeDefinition) :
    (buildCell db d).preconditions_failed ≠ some [] ∧
    ((buildCell db d).value = none →
      (buildCell db d).preconditions_failed = none) ∧
    (d.multi_choice_mandatory = none →
      (buildCell db d).preconditions_failed = none) ∧
    (∀ av, findValue db d = some av →
      selectedCode d av.attribute_value = none →
      (buildCell db d).preconditions_failed = none) ∧
    (∀ av code, findValue db d = some av →
      selectedCode d av.attribute_value = some code →
      (code.testBit 0 = true → hasComment db d.definition_id = true) →
      (code.testBit 1 = true → hasEvidence db d.definition_id = true) →
      (code.testBit 2 = true → hasUrlEvidence db d.definition_id = true) →
      (buildCell db d).preconditions_failed = none) := by
  rcases hfv : findValue db d with _ | av
  · have hpf : (buildCell db d).preconditions_failed = none := by
      simp [buildCell, hfv]
    rw [hpf]
    exact ⟨by simp, fun _ => rfl, fun _ => rfl, fun _ _ _ => rfl,
      fun _ _ _ _ _ _ _ => rfl⟩
  · have hpf := buildCell_pf_of_value hfv
    refine ⟨?_, ?_, ?_, ?_, ?_⟩
    · rw [hpf]
      rcases hc : selectedCode d av.attribute_value with _ | code
      · rw [evalPre_none_of_code_none hc]
        simp
      · rw [evalPre_some_code db hc]
        by_cases hnil : unmetRequirements db d.definition_id code = []
        · rw [if_pos hnil]
          simp
        · rw [if_neg hnil]
          intro hcontra
          exact hnil (Option.some.inj hcontra)
    · intro hval
      rw [buildCell_value_of_value hfv] at hval
      by_cases hmp : d.attribute_type = "Map:Person"
      · rw [if_pos hmp] at hval
        cases hval
      · rw [if_neg hmp] at hval
        cases hval
    · intro hmand
      rw [hpf, evalPre_none_of_code_none (selectedCode_none_of_no_mask hmand _)]
    · intro av2 hav2 hc
      have hae : av = av2 := Option.some.inj (hfv ▸ hav2)
      subst hae
      rw [hpf, evalPre_none_of_code_none hc]
    · intro av2 code hav2 hc hcom hev hurl
      have hae : av = av2 := Option.some.inj (hfv ▸ hav2)
      subst hae
      rw [hpf, evalPre_some_code db hc,
        if_pos (unmet_nil_of_satisfied hcom hev hurl)]

/-- C7 witness at the Dropdown cell of `dropdownDemoDB`. -/
theorem preconditions_null_never_empty_list_witness :
    (buildCell dropdownDemoDB
        (dropdownDemoDB.definitions.get ⟨0, by decide⟩)).preconditions_failed ≠
      some [] ∧
    ((buildCell dropdownDemoDB
        (dropdownDemoDB.definitions.get ⟨0, by decide⟩)).value = none →
      (buildCell dropdownDemoDB
        (dropdownDemoDB.definitions.get ⟨0, by decide⟩)).preconditions_failed =
        none) ∧
    ((dropdownDemoDB.definitions.get ⟨0, by decide⟩).multi_choice_mandatory =
        none →
      (buildCell dropdownDemoDB
        (dropdownDemoDB.definitions.get ⟨0, by decide⟩)).preconditions_failed =
        none) ∧
    (∀ av, findValue dropdownDemoDB
        (dropdownDemoDB.definitions.get ⟨0, by decide⟩) = some av →
      selectedCode (dropdownDemoDB.definitions.get ⟨0, by decide⟩)
          av.attribute_value = none →
      (buildCell dropdownDemoDB
        (dropdownDemoDB.definitions.get ⟨0, by decide⟩)).preconditions_failed =
        none) ∧
    (∀ av code, findValue dropdownDemoDB
        (dropdownDemoDB.definitions.get ⟨0, by decide⟩) = some av →
      selectedCode (dropdownDemoDB.definitions.get ⟨0, by decide⟩)
          av.attribute_value = some code →
      (code.testBit 0 = true →
        hasComment dropdownDemoDB
          (dropdownDemoDB.definitions.get ⟨0, by decide⟩).definition_id = true) →
      (code.testBit 1 = true →
        hasEvidence dropdownDemoDB
          (dropdownDemoDB.definitions.get ⟨0, by decide⟩).definition_id = true) →
      (code.testBit 2 = true →
        hasUrlEvidence dropdownDemoDB
          (dropdownDemoDB.definitions.get ⟨0, by decide⟩).definition_id = true) →
      (buildCell dropdownDemoDB
        (dropdownDemoDB.definitions.get ⟨0, by decide⟩)).preconditions_failed =
        none) :=
  preconditions_null_never_empty_list dropdownDemoDB
    (dropdownDemoDB.definitions.get ⟨0, by decide⟩)

/-- C3: for a cell with a recorded value whose selected option decodes to
requirement code `code`, every declared-but-unsatisfied requirement's name
appears in `preconditions_failed` (bit 1 comment, bit 2 any evidence,
bit 4 url evidence), the reported names are exactly the unmet declared
requirements, and they follow the fixed order comment, evidence, url. -/
theorem unmet_mask_requirements_reported (db : DB) (d : AttributeDefinition)
    (av : AttributeValue) (code : Nat)
    (hv : findValue db d = some av)
    (hc : selectedCode d av.attribute_value = some code) :
    (∀ l, (buildCell db d).preconditions_failed = some l →
      ("comment" ∈ l ↔
        code.testBit 0 = true ∧ hasComment db d.definition_id = false) ∧
      ("evidence" ∈ l ↔
        code.testBit 1 = true ∧ hasEvidence db d.definition_id = false) ∧
      ("url" ∈ l ↔
        code.testBit 2 = true ∧ hasUrlEvidence db d.definition_id = false) ∧
      l.Sublist ["comment", "evidence", "url"]) ∧
    (code.testBit 0 = true → hasComment db d.definition_id = false →
      ∃ l, (buildCell db d).preconditions_failed = some l ∧ "comment" ∈ l) ∧
    (code.testBit 1 = true → hasEvidence db d.definition_id = false →
      ∃ l, (buildCell db d).preconditions_failed = some l ∧ "evidence" ∈ l) ∧
    (code.testBit 2 = true → hasUrlEvidence db d.definition_id = false →
      ∃ l, (buildCell db d).preconditions_failed = some l ∧ "url" ∈ l) := by
  have hpf := buildCell_pf_of_value hv
  have hevc := evalPre_some_code db hc
  obtain ⟨hm1, hm2, hm3⟩ := unmet_mem db d.definition_id code
  refine ⟨?_, ?_, ?_, ?_⟩
  · intro l hl
    rw [hpf, hevc] at hl
    by_cases hnil : unmetRequirements db d.definition_id code = []
    · rw [if_pos hnil] at hl
      cases hl
    · rw [if_neg hnil] at hl
      obtain rfl := Option.some.inj hl
      exact ⟨hm1, hm2, hm3, unmet_sublist db d.definition_id code⟩
  · intro hbit hsat
    have hmem : "comment" ∈ unmetRequirements db d.definition_id code :=
      hm1.mpr ⟨hbit, hsat⟩
    refine ⟨unmetRequirements db d.definition_id code, ?_, hmem⟩
    rw [hpf, hevc, if_neg (List.ne_nil_of_mem hmem)]
  · intro hbit hsat
    have hmem : "evidence" ∈ unmetRequirements db d.definition_id code :=
      hm2.mpr ⟨hbit, hsat⟩
    refine ⟨unmetRequirements db d.definition_id code, ?_, hmem⟩
    rw [hpf, hevc, if_neg (List.ne_nil_of_mem hmem)]
  · intro hbit hsat
    have hmem : "url" ∈ unmetRequirements db d.definition_id code :=
      hm3.mpr ⟨hbit, hsat⟩
    refine ⟨unmetRequirements db d.definition_id code, ?_, hmem⟩
    rw [hpf, hevc, if_neg (List.ne_nil_of_mem hmem)]

/-- C3 witness: the Dropdown cell of `dropdownDemoDB` selects option "1"
whose mask code is 4, and the object has no url evidence, so "url" is
reported. -/
theorem unmet_mask_requirements_reported_witness :
    findValue dropdownDemoDB (dropdownDemoDB.definitions.get ⟨0, by decide⟩) =
      some (dropdownDemoDB.values.get ⟨0, by decide⟩) ∧
    selectedCode (dropdownDemoDB.definitions.get ⟨0, by decide⟩)
      (dropdownDemoDB.values.get ⟨0, by decide⟩).attribute_value = some 4 ∧
    (Nat.testBit 4 2 = true →
      hasUrlEvidence dropdownDemoDB
        (dropdownDemoDB.definitions.get ⟨0, by decide⟩).definition_id = false →
      ∃ l, (buildCell dropdownDemoDB
          (dropdownDemoDB.definitions.get ⟨0, by decide⟩)).preconditions_failed =
          some l ∧ "url" ∈ l) :=
  ⟨by decide, by decide,
    (unmet_mask_requirements_reported dropdownDemoDB
        (dropdownDemoDB.definitions.get ⟨0, by decide⟩)
        (dropdownDemoDB.values.get ⟨0, by decide⟩) 4
        (by decide) (by decide)).2.2.2⟩

/-- C8: zero resolved objects yield the empty response; objects with no
definitions yield an empty attributes list while every resolved object
still appears in assessments; a Row never has an empty values map. -/
theorem empty_results_not_error (db : DB) (ids : List Nat)
    (hres : ∀ i ∈ ids, (lookupObj db i).isSome = true) :
    (matrixResponse db []).attributes = [] ∧
    (matrixResponse db []).assessments = [] ∧
    (loadedDefs db ids = [] →
      (matrixResponse db ids).attributes = [] ∧
      (matrixResponse db ids).assessments.length = ids.length) ∧
    (∀ r ∈ (matrixResponse db ids).attributes, r.values ≠ []) := by
  refine ⟨?_, rfl, ?_, ?_⟩
  · have hld : loadedDefs db [] = [] := by
      unfold loadedDefs
      rw [List.filter_eq_nil_iff]
      intro x hx h
      simp at h
    show (groupRows (loadedDefs db [])).map (renderRow db) = []
    rw [hld]
    rfl
  · intro h
    constructor
    · show (groupRows (loadedDefs db ids)).map (renderRow db) = []
      rw [h]
      rfl
    · have hfm := filterMap_total (fun i => (lookupObj db i).map summarize) ids
        (fun i hi => by
          obtain ⟨o, ho⟩ := Option.isSome_iff_exists.mp (hres i hi)
          simp [ho])
      exact hfm.1
  · intro r hr
    have hattr : (matrixResponse db ids).attributes =
        (groupRows (loadedDefs db ids)).map (renderRow db) := rfl
    rw [hattr] at hr
    obtain ⟨g, hg, rfl⟩ := List.mem_map.mp hr
    have hne : g.defs ≠ [] := List.ne_nil_of_mem (groupRows_rep_mem_defs hg)
    show (g.defs.map fun d => (toString d.definition_id, buildCell db d)) ≠ []
    intro hcontra
    rw [List.map_eq_nil_iff] at hcontra
    exact hne hcontra

/-- C8 witness: the no-definition snapshot obtained by clearing
`diffDemoDB`'s definitions, queried for its two assessments. -/
theorem empty_results_not_error_witness :
    (∀ i ∈ [1, 2],
      (lookupObj (DB.mk diffDemoDB.objects [] []) i).isSome = true) ∧
    ((matrixResponse (DB.mk diffDemoDB.objects [] []) []).attributes = [] ∧
      (matrixResponse (DB.mk diffDemoDB.objects [] []) []).assessments = [] ∧
      (loadedDefs (DB.mk diffDemoDB.objects [] []) [1, 2] = [] →
        (matrixResponse (DB.mk diffDemoDB.objects [] []) [1, 2]).attributes =
            [] ∧
        (matrixResponse (DB.mk diffDemoDB.objects [] []) [1, 2]).assessments.length =
          [1, 2].length) ∧
      (∀ r ∈ (matrixResponse (DB.mk diffDemoDB.objects [] []) [1, 2]).attributes,
        r.values ≠ [])) :=
  ⟨by decide,
    empty_results_not_error (DB.mk diffDemoDB.objects [] []) [1, 2] (by decide)⟩

/-- C9: one engine invocation leaves the read snapshot unchanged, and
re-running it on the resulting state yields the identical response — the
engine is a pure read-only transform, so repeated runs with no intervening
writes agree. -/
theorem engine_read_only_idempotent (db : DB) (ob : Option OrderBy) :
    (runEngine db ob).2 = db ∧
    (runEngine ((runEngine db ob).2) ob).1 = (runEngine db ob).1 ∧
    (runEngine ((runEngine db ob).2) ob).2 = db :=
  ⟨rfl, rfl, rfl⟩

end Ggrc
